import Mathlib

/-!
Shallow embedding of `django-nonrel/ocl/sources/views.py` from the oclapi
repository: REST view handlers for Source resources and their versions.
External collaborators (serializers, permission engine, search backend, ORM)
are modelled as parameters or abstract markers, matching the spec's scoping.
-/

set_option autoImplicit false

namespace Oclapi

/-! ## Data model -/

/-- A concept-version record (`concepts.models.ConceptVersion`), reduced to the
fields the views read: identifier, `is_active`, `retired`. -/
structure ConceptVersion where
  id : Nat
  is_active : Bool
  retired : Bool
  deriving DecidableEq, Repr

/-- A mapping record (`mappings.models.Mapping`), reduced to the fields the
views read. -/
structure Mapping where
  id : Nat
  is_active : Bool
  retired : Bool
  deriving DecidableEq, Repr

/-- A Source resource (`sources.models.Source`), reduced to the lookup key and
the active flag the base queryset filters on. -/
structure Source where
  mnemonic : String
  is_active : Bool
  deriving DecidableEq, Repr

/-- A SourceVersion record (`sources.models.SourceVersion`): references its
parent Source (`versioned_object`), carries the `released` and `is_active`
flags, its concept/mapping membership sets, and an optional previous-version
link (`parent_version`). -/
structure SourceVersion where
  mnemonic : String
  versioned_object_mnemonic : String
  released : Bool
  is_active : Bool
  concepts : List Nat
  mappings : List Nat
  parent_version_mnemonic : Option String
  deriving DecidableEq, Repr

/-- The persistent store the views operate over. -/
structure DB where
  sources : List Source
  sourceVersions : List SourceVersion
  conceptVersions : List ConceptVersion
  mappings : List Mapping
  deriving DecidableEq, Repr

/-! ## Requests and query parameters -/

def INCLUDE_CONCEPTS_PARAM : String := "includeConcepts"
def INCLUDE_MAPPINGS_PARAM : String := "includeMappings"
def LIMIT_PARAM : String := "limit"
def INCLUDE_RETIRED_PARAM : String := "includeRetired"

/-- `request.QUERY_PARAMS.get(k, default)` with a `False`-like default:
`none` when the parameter is absent, otherwise the raw string value. -/
def getParam (params : List (String × String)) (k : String) : Option String :=
  (params.find? (fun p => p.fst = k)).map Prod.snd

/-- Python truthiness of `QUERY_PARAMS.get(k, False)`: the default `False` is
falsy; a string value is truthy exactly when it is non-empty. The string
content (e.g. `"false"`, `"0"`) is never parsed. -/
def truthy : Option String → Bool
  | none => false
  | some s => !s.isEmpty

def charDigit? (c : Char) : Option Nat :=
  if c.isDigit then some (c.toNat - '0'.toNat) else none

/-- Decimal parse of a non-empty all-digit string, `none` otherwise: our model
of Python `int()` on query-parameter text (`int("")` and `int("abc")`
raise). -/
def strToNat? (s : String) : Option Nat :=
  if s.isEmpty then none
  else
    s.data.foldl (fun acc c =>
      match acc, charDigit? c with
      | some n, some d => some (10 * n + d)
      | _, _ => none) (some 0)

/-- The view keeps `limit` as the raw query string (absent defaults to the
falsy `0`), tests its truthiness (`if limit:`) and only then slices with a
bound Django passes through `int()`. `some none`: truncation off (parameter
absent or empty); `some (some n)`: truncation to `n` (so `limit=0` slices to
the empty list); `none`: `int()` would raise on the given text. -/
def sliceOf? (params : List (String × String)) : Option (Option Nat) :=
  match getParam params LIMIT_PARAM with
  | none => some none
  | some s => if truthy (some s) then (strToNat? s).map some else some none

/-- Specification-side abbreviation: the numeric value of the `limit`
parameter (`int(limit)` when present and parseable, `0` otherwise). Used only
in theorem statements; the view's own truthiness test and slicing are
modelled by `sliceOf?`. -/
def limitOf (params : List (String × String)) : Nat :=
  ((getParam params LIMIT_PARAM).bind strToNat?).getD 0

/-- The slice `queryset[0:limit]` applied when the limit is truthy (`some`),
the untouched queryset otherwise. -/
def applySlice {α : Type} (slice : Option Nat) (l : List α) : List α :=
  match slice with
  | some limit => l.take limit
  | none => l

/-! ## External collaborator markers -/

/-- Permission classes assigned by the views (the permission engine itself is
an external collaborator). -/
inductive Permission where
  | CanViewConceptDictionary
  | CanEditConceptDictionary
  | CanViewConceptDictionaryVersion
  | CanEditConceptDictionaryVersion
  | HasAccessToVersionedObject
  deriving DecidableEq, Repr

/-- Serializer choice made by the list views: detail (verbose) vs summary. -/
inductive SerializerChoice where
  | detail
  | summary
  deriving DecidableEq, Repr

/-! ## Latest-version resolution -/

/-- Modelled from the spec: `SourceVersion.get_latest_version_of` is defined in
`sources/models.py`, which is not among the provided sources. The spec states
that the latest version "is resolved by querying for the version marked
released for a given Source". -/
def get_latest_version_of (db : DB) (src : Source) : Option SourceVersion :=
  (db.sourceVersions.filter
    (fun v => v.versioned_object_mnemonic == src.mnemonic && v.released)).head?

/-! ## SourceRetrieveUpdateDestroyView -/

/-- Permission selection in `SourceRetrieveUpdateDestroyView.initialize`:
read-only view permission for GET/HEAD, edit permission otherwise. -/
def sourceDetailPermissions (method : String) : List Permission :=
  if method = "GET" ∨ method = "HEAD" then
    [Permission.CanViewConceptDictionary]
  else
    [Permission.CanEditConceptDictionary]

/-- Response body of `SourceRetrieveUpdateDestroyView.retrieve`: the serialized
Source attributes plus the optional `concepts` / `mappings` keys (`none` means
the key is absent from the body). -/
structure SourceRetrieveData where
  base : Source
  concepts : Option (List ConceptVersion)
  mappings : Option (List Mapping)
  deriving DecidableEq, Repr

/-- The concept queryset assembled inside `retrieve` when `include_concepts`
is set: active concept-versions, minus retired ones unless
`include_retired`, restricted to the latest version's concept set, sliced by
`queryset[0:limit]` when the `limit` string is truthy (`slice = some bound`,
the bound being `int(limit)`). -/
def conceptsFor (db : DB) (source_version : SourceVersion)
    (include_retired : Bool) (slice : Option Nat) : List ConceptVersion :=
  let queryset := db.conceptVersions.filter (fun c => c.is_active)
  let queryset :=
    if !include_retired then queryset.filter (fun c => !(c.retired = true))
    else queryset
  let queryset := queryset.filter (fun c => source_version.concepts.contains c.id)
  applySlice slice queryset

/-- The mapping queryset assembled inside `retrieve` when `include_mappings`
is set; same shape as `conceptsFor` over `Mapping`. -/
def mappingsFor (db : DB) (source_version : SourceVersion)
    (include_retired : Bool) (slice : Option Nat) : List Mapping :=
  let queryset := db.mappings.filter (fun m => m.is_active)
  let queryset :=
    if !include_retired then queryset.filter (fun m => !(m.retired = true))
    else queryset
  let queryset := queryset.filter (fun m => source_version.mappings.contains m.id)
  applySlice slice queryset

/-- `SourceRetrieveUpdateDestroyView.retrieve`. `src` is the object already
resolved by the generic retrieve machinery. The `limit` and `includeRetired`
parameters are only read inside the branch entered when an inclusion flag is
truthy, as in the source. Returns `none` where the Python code would raise:
latest-version attribute access on a Source with no released version, or
`int()` on a truthy non-numeric `limit`. -/
def retrieve (db : DB) (params : List (String × String)) (src : Source) :
    Option SourceRetrieveData :=
  if truthy (getParam params INCLUDE_CONCEPTS_PARAM)
      || truthy (getParam params INCLUDE_MAPPINGS_PARAM) then
    (get_latest_version_of db src).bind (fun source_version =>
      (sliceOf? params).map (fun slice =>
        { base := src
          concepts :=
            if truthy (getParam params INCLUDE_CONCEPTS_PARAM) then
              some (conceptsFor db source_version
                (truthy (getParam params INCLUDE_RETIRED_PARAM)) slice)
            else none
          mappings :=
            if truthy (getParam params INCLUDE_MAPPINGS_PARAM) then
              some (mappingsFor db source_version
                (truthy (getParam params INCLUDE_RETIRED_PARAM)) slice)
            else none }))
  else
    some { base := src, concepts := none, mappings := none }

/-! ## List views -/

/-- `SourceListView.get`: choose detail vs summary serializer from the verbose
flag, then list the filtered queryset. The search backend
(`HaystackSearchFilter`) is an external collaborator, passed in as
`filterBackend`. -/
def sourceListGet (filterBackend : List Source → List Source)
    (verbose : Bool) (db : DB) : SerializerChoice × List Source :=
  ((if verbose then SerializerChoice.detail else SerializerChoice.summary),
   filterBackend (db.sources.filter (fun s => s.is_active)))

/-- `SourceVersionListView.get`: same pattern over the version queryset
(`SourceVersion.objects.filter(is_active=True)`, further restricted to the
addressed Source by the `ResourceVersionMixin` collaborator, passed in as
`filterBackend`). -/
def sourceVersionListGet (filterBackend : List SourceVersion → List SourceVersion)
    (verbose : Bool) (db : DB) : SerializerChoice × List SourceVersion :=
  ((if verbose then SerializerChoice.detail else SerializerChoice.summary),
   filterBackend (db.sourceVersions.filter (fun v => v.is_active)))

/-- `SourceVersionChildListView.get` together with its `get_queryset`: the
base queryset (from `ResourceAttributeChildMixin`) filtered by
`parent_version=self.resource_version, is_active=True`. -/
def sourceVersionChildListGet (baseQueryset : List SourceVersion)
    (resource_version : SourceVersion) (verbose : Bool) :
    SerializerChoice × List SourceVersion :=
  ((if verbose then SerializerChoice.detail else SerializerChoice.summary),
   baseQueryset.filter
     (fun v => v.parent_version_mnemonic == some resource_version.mnemonic
       && v.is_active))

/-! ## SourceVersionListView.create -/

/-- Payload of a version-create / version-update request, reduced to the fields
our model of the serializer reads. -/
structure VersionPayload where
  mnemonic : String
  released : Bool
  deriving DecidableEq, Repr

/-- Modelled from the spec: `SourceVersionCreateSerializer.save(force_insert=True,
versioned_object=parent)` lives in `sources/serializers.py`, which is not among
the provided sources. The spec states that on success the handler "persists the
new version linked to the parent". -/
def saveNewVersion (payload : VersionPayload) (parent : Source) : SourceVersion :=
  { mnemonic := payload.mnemonic
    versioned_object_mnemonic := parent.mnemonic
    released := payload.released
    is_active := true
    concepts := []
    mappings := []
    parent_version_mnemonic := none }

/-- Responses of `SourceVersionListView.create`. -/
inductive CreateResponse where
  | methodNotAllowed
  | created (detail : SourceVersion) (headers : List (String × String))
  | badRequest (errors : List String)
  deriving DecidableEq, Repr

/-- `SourceVersionListView.create`. `valid`/`errorsOf` model the (external)
create serializer's validation; `successHeaders` models
`get_success_headers`. Returns the response and the resulting store. -/
def createVersion (valid : VersionPayload → Bool)
    (errorsOf : VersionPayload → List String)
    (successHeaders : VersionPayload → List (String × String))
    (versioned_object : Option Source) (payload : VersionPayload)
    (db : DB) : CreateResponse × DB :=
  match versioned_object with
  | none => (CreateResponse.methodNotAllowed, db)
  | some parent =>
    if valid payload then
      let obj := saveNewVersion payload parent
      let db' : DB := { db with sourceVersions := db.sourceVersions ++ [obj] }
      if valid payload then
        (CreateResponse.created obj (successHeaders payload), db')
      else
        (CreateResponse.badRequest (errorsOf payload), db')
    else
      (CreateResponse.badRequest (errorsOf payload), db)

/-! ## SourceVersionRetrieveUpdateView -/

/-- Permission and serializer selection in
`SourceVersionRetrieveUpdateView.initialize`. -/
def sourceVersionDetailPermissions (method : String) :
    List Permission × SerializerChoice :=
  if method = "GET" ∨ method = "HEAD" then
    ([Permission.CanViewConceptDictionaryVersion], SerializerChoice.detail)
  else
    ([Permission.CanEditConceptDictionaryVersion], SerializerChoice.summary)

/-- Modelled from the spec: `SourceVersionUpdateSerializer.save(force_update=True,
versioned_object=parent)` is not among the provided sources; the spec states
that partial update persists "via partial update against the same parent
linkage". The stored object keeps its identity; the payload fields are applied
onto it. -/
def savePatchedVersion (obj : SourceVersion) (payload : VersionPayload)
    (parent : Source) : SourceVersion :=
  { obj with released := payload.released
             versioned_object_mnemonic := parent.mnemonic }

/-- Responses of `SourceVersionRetrieveUpdateView.update`. -/
inductive UpdateResponse where
  | methodNotAllowed
  | ok (detail : SourceVersion)
  | badRequest (errors : List String)
  deriving DecidableEq, Repr

/-- `SourceVersionRetrieveUpdateView.update`. `obj` is the object resolved by
`get_object`; `valid`/`errorsOf` model the (external) update serializer. -/
def updateVersion (valid : VersionPayload → Bool)
    (errorsOf : VersionPayload → List String)
    (versioned_object : Option Source) (obj : SourceVersion)
    (payload : VersionPayload) (db : DB) : UpdateResponse × DB :=
  match versioned_object with
  | none => (UpdateResponse.methodNotAllowed, db)
  | some parent =>
    if valid payload then
      let obj' := savePatchedVersion obj payload parent
      let db' : DB :=
        { db with sourceVersions :=
            db.sourceVersions.map (fun v => if v == obj then obj' else v) }
      if valid payload then (UpdateResponse.ok obj', db')
      else (UpdateResponse.badRequest (errorsOf payload), db')
    else
      (UpdateResponse.badRequest (errorsOf payload), db)

/-- Outcome of `SourceVersionRetrieveUpdateView.get_object`. -/
inductive GetObjectResult where
  | notFound
  | multipleReturned
  | permissionDenied
  | found (v : SourceVersion)
  deriving DecidableEq, Repr

/-- `SourceVersionRetrieveUpdateView.get_object`. In the `is_latest` mode the
object is resolved by `get_object_or_404(queryset, released=True)` over the
current filtered queryset (Django `get` semantics: 404 on no match, error on
several), followed by `check_object_permissions`; otherwise the generic
lookup-by-identifier (`byId`, an external collaborator result) is used. -/
def get_object (is_latest : Bool) (queryset : List SourceVersion)
    (hasPerm : SourceVersion → Bool) (byId : GetObjectResult) : GetObjectResult :=
  if is_latest then
    match queryset.filter (fun v => v.released) with
    | [] => GetObjectResult.notFound
    | [obj] =>
      if hasPerm obj then GetObjectResult.found obj
      else GetObjectResult.permissionDenied
    | _ :: _ :: _ => GetObjectResult.multipleReturned
  else byId

/-! ## SourceVersionRetrieveUpdateDestroyView -/

/-- Responses of `SourceVersionRetrieveUpdateDestroyView.destroy`. -/
inductive DestroyResponse where
  | badRequest (errors : List (String × List String))
  | deleted
  deriving DecidableEq, Repr

/-- The generic `DestroyAPIView.destroy` the view delegates to: deletes the
object from the store. -/
def genericDestroy (db : DB) (version : SourceVersion) : DestroyResponse × DB :=
  (DestroyResponse.deleted,
   { db with sourceVersions := db.sourceVersions.filter (fun v => v ≠ version) })

/-- `SourceVersionRetrieveUpdateDestroyView.destroy`. `version` is the object
resolved by `get_object`. -/
def destroyVersion (db : DB) (version : SourceVersion) : DestroyResponse × DB :=
  if version.released then
    (DestroyResponse.badRequest
      [("non_field_errors",
        ["Cannot deactivate a version that is currently released.  Please release another version before deactivating this one."])],
     db)
  else
    genericDestroy db version

/-! ## Helper lemmas -/

theorem truthy_iff (o : Option String) :
    truthy o = true ↔ ∃ s, o = some s ∧ s ≠ "" := by
  cases o with
  | none => simp [truthy]
  | some s =>
    simp only [truthy, Option.some.injEq]
    constructor
    · intro h
      refine ⟨s, rfl, fun hs => ?_⟩
      rw [hs] at h
      exact absurd h (by decide)
    · rintro ⟨t, ht, hne⟩
      cases ht
      cases hE : s.isEmpty with
      | true => exact absurd ((String.isEmpty_iff s).mp hE) hne
      | false => simp [hE]

theorem mem_applySlice {α : Type} {slice : Option Nat} {l : List α} {a : α}
    (h : a ∈ applySlice slice l) : a ∈ l := by
  cases slice with
  | none => exact h
  | some n => exact List.take_subset _ _ h

theorem mem_conceptsFor {db : DB} {v : SourceVersion} {ir : Bool}
    {slice : Option Nat} {c : ConceptVersion} (h : c ∈ conceptsFor db v ir slice) :
    c ∈ db.conceptVersions ∧ c.is_active = true ∧
      v.concepts.contains c.id = true ∧ (ir = false → c.retired = false) := by
  unfold conceptsFor at h
  have h' := mem_applySlice h
  cases ir with
  | false => simp_all [List.mem_filter]
  | true => simp_all [List.mem_filter]

theorem mem_mappingsFor {db : DB} {v : SourceVersion} {ir : Bool}
    {slice : Option Nat} {m : Mapping} (h : m ∈ mappingsFor db v ir slice) :
    m ∈ db.mappings ∧ m.is_active = true ∧
      v.mappings.contains m.id = true ∧ (ir = false → m.retired = false) := by
  unfold mappingsFor at h
  have h' := mem_applySlice h
  cases ir with
  | false => simp_all [List.mem_filter]
  | true => simp_all [List.mem_filter]

theorem length_conceptsFor {db : DB} {v : SourceVersion} {ir : Bool} {n : Nat} :
    (conceptsFor db v ir (some n)).length ≤ n := by
  simp only [conceptsFor, applySlice]
  exact (List.length_take _ _).le.trans (Nat.min_le_left _ _)

theorem length_mappingsFor {db : DB} {v : SourceVersion} {ir : Bool} {n : Nat} :
    (mappingsFor db v ir (some n)).length ≤ n := by
  simp only [mappingsFor, applySlice]
  exact (List.length_take _ _).le.trans (Nat.min_le_left _ _)

theorem mem_conceptsFor_retired_iff {db : DB} {v : SourceVersion}
    {c : ConceptVersion} :
    c ∈ conceptsFor db v true none ↔
      c ∈ db.conceptVersions ∧ c.is_active = true ∧
        v.concepts.contains c.id = true := by
  simp [conceptsFor, applySlice, List.mem_filter]
  tauto

/-- A parseable non-zero `limit` is a non-empty string, hence truthy, and the
view slices by exactly that bound. -/
theorem sliceOf_of_limitOf_ne {p : List (String × String)}
    (hn : limitOf p ≠ 0) : sliceOf? p = some (some (limitOf p)) := by
  have hg : ∃ s n, getParam p LIMIT_PARAM = some s ∧ strToNat? s = some n := by
    cases hgp : getParam p LIMIT_PARAM with
    | none => exact absurd (by simp [limitOf, hgp]) hn
    | some s =>
      cases hsp : strToNat? s with
      | none => exact absurd (by simp [limitOf, hgp, hsp]) hn
      | some n => exact ⟨s, n, rfl, hsp⟩
  obtain ⟨s, n, hgp, hsp⟩ := hg
  have hne : s.isEmpty = false := by
    cases hE : s.isEmpty with
    | false => rfl
    | true => rw [strToNat?, if_pos hE] at hsp; cases hsp
  have hlv : limitOf p = n := by simp [limitOf, hgp, hsp]
  rw [hlv]
  simp [sliceOf?, hgp, truthy, hne, hsp]

/-- With an absent or empty (falsy) `limit` the view performs no slicing. -/
theorem sliceOf_of_not_truthy {p : List (String × String)}
    (h : truthy (getParam p LIMIT_PARAM) = false) : sliceOf? p = some none := by
  unfold sliceOf?
  cases hgp : getParam p LIMIT_PARAM with
  | none => rfl
  | some s => rw [hgp] at h; simp [h]

/-- Case analysis of `retrieve db params src = some r`: either no inclusion
flag is truthy and the body has no extra keys, or the latest version and the
slice bound resolved and each key is attached according to its flag. -/
theorem retrieve_cases {db : DB} {p : List (String × String)} {src : Source}
    {r : SourceRetrieveData} (hr : retrieve db p src = some r) :
    (truthy (getParam p INCLUDE_CONCEPTS_PARAM) = false ∧
     truthy (getParam p INCLUDE_MAPPINGS_PARAM) = false ∧
     r = { base := src, concepts := none, mappings := none }) ∨
    (∃ v slice, get_latest_version_of db src = some v ∧
      sliceOf? p = some slice ∧
      r = { base := src
            concepts :=
              if truthy (getParam p INCLUDE_CONCEPTS_PARAM) then
                some (conceptsFor db v
                  (truthy (getParam p INCLUDE_RETIRED_PARAM)) slice)
              else none
            mappings :=
              if truthy (getParam p INCLUDE_MAPPINGS_PARAM) then
                some (mappingsFor db v
                  (truthy (getParam p INCLUDE_RETIRED_PARAM)) slice)
              else none }) := by
  unfold retrieve at hr
  split at hr
  case isTrue h =>
    rw [Option.bind_eq_some] at hr
    obtain ⟨v, hv, hr⟩ := hr
    rw [Option.map_eq_some'] at hr
    obtain ⟨slice, hsl, hs⟩ := hr
    exact Or.inr ⟨v, slice, hv, hsl, hs.symm⟩
  case isFalse h =>
    rw [Bool.or_eq_true, not_or] at h
    exact Or.inl ⟨Bool.not_eq_true _ ▸ h.1, Bool.not_eq_true _ ▸ h.2,
      (Option.some.inj hr).symm⟩

/-! ## Concrete fixtures -/

def srcA : Source := { mnemonic := "A", is_active := true }

def cv1 : ConceptVersion := { id := 1, is_active := true, retired := false }

def cv2 : ConceptVersion := { id := 2, is_active := true, retired := false }

def cvRet : ConceptVersion := { id := 1, is_active := true, retired := true }

def mp1 : Mapping := { id := 1, is_active := true, retired := false }

def mp2 : Mapping := { id := 2, is_active := true, retired := false }

def verRel : SourceVersion :=
  { mnemonic := "v1", versioned_object_mnemonic := "A", released := true,
    is_active := true, concepts := [1, 2], mappings := [1, 2],
    parent_version_mnemonic := none }

def verUnrel : SourceVersion :=
  { mnemonic := "v2", versioned_object_mnemonic := "A", released := false,
    is_active := true, concepts := [], mappings := [],
    parent_version_mnemonic := some "v1" }

def dbEx : DB :=
  { sources := [srcA], sourceVersions := [verRel, verUnrel],
    conceptVersions := [cv1, cv2], mappings := [mp1, mp2] }

def dbRet : DB :=
  { sources := [srcA], sourceVersions := [verRel],
    conceptVersions := [cvRet], mappings := [] }

/-! ## Claim theorems -/

/-- Claim C2: a DELETE on a SourceVersion with `released = true` yields a 400
response carrying an explanatory field error and leaves the store unchanged; a
DELETE on a version with `released = false` is delegated to the generic
deletion. -/
theorem c2_destroy_released_guard (db : DB) (v : SourceVersion) :
    (v.released = true →
      destroyVersion db v =
        (DestroyResponse.badRequest
          [("non_field_errors",
            ["Cannot deactivate a version that is currently released.  Please release another version before deactivating this one."])],
         db)) ∧
    (v.released = false → destroyVersion db v = genericDestroy db v) := by
  constructor <;> intro h <;> simp [destroyVersion, h]

/-- Witness for C2: the guard and the delegation at concrete versions. -/
theorem c2_destroy_released_guard_witness :
    destroyVersion dbEx verRel =
      (DestroyResponse.badRequest
        [("non_field_errors",
          ["Cannot deactivate a version that is currently released.  Please release another version before deactivating this one."])],
       dbEx) ∧
    destroyVersion dbEx verUnrel = genericDestroy dbEx verUnrel :=
  ⟨(c2_destroy_released_guard dbEx verRel).1 rfl,
   (c2_destroy_released_guard dbEx verUnrel).2 rfl⟩

/-- Claim C3: when the parent Source reference (`versioned_object`) does not
resolve, both version creation and version partial update answer 405 Method
Not Allowed and leave the store unchanged (no version persisted). -/
theorem c3_unresolved_parent_405 (valid : VersionPayload → Bool)
    (errorsOf : VersionPayload → List String)
    (successHeaders : VersionPayload → List (String × String))
    (obj : SourceVersion) (payload : VersionPayload) (db : DB) :
    createVersion valid errorsOf successHeaders none payload db =
      (CreateResponse.methodNotAllowed, db) ∧
    updateVersion valid errorsOf none obj payload db =
      (UpdateResponse.methodNotAllowed, db) :=
  ⟨rfl, rfl⟩

/-- Claim C5: a GET on a Source with neither `includeConcepts` nor
`includeMappings` supplied returns a body with neither a `concepts` nor a
`mappings` key. -/
theorem c5_no_flags_no_keys (db : DB) (p : List (String × String)) (src : Source)
    (h1 : getParam p INCLUDE_CONCEPTS_PARAM = none)
    (h2 : getParam p INCLUDE_MAPPINGS_PARAM = none) :
    retrieve db p src = some { base := src, concepts := none, mappings := none } := by
  simp [retrieve, h1, h2, truthy]

/-- Witness for C5: a request with an empty parameter list. -/
theorem c5_no_flags_no_keys_witness :
    getParam [] INCLUDE_CONCEPTS_PARAM = none ∧
    getParam [] INCLUDE_MAPPINGS_PARAM = none ∧
    retrieve dbEx [] srcA =
      some { base := srcA, concepts := none, mappings := none } :=
  ⟨rfl, rfl, c5_no_flags_no_keys dbEx [] srcA rfl rfl⟩

/-- Claim C6: during initialization, both the Source detail view and the
version retrieve/update view select the read-only view permission for GET and
HEAD and the edit permission for every other HTTP method. -/
theorem c6_permission_by_verb (m : String) :
    ((m = "GET" ∨ m = "HEAD") →
      sourceDetailPermissions m = [Permission.CanViewConceptDictionary] ∧
      (sourceVersionDetailPermissions m).1 =
        [Permission.CanViewConceptDictionaryVersion]) ∧
    (¬(m = "GET" ∨ m = "HEAD") →
      sourceDetailPermissions m = [Permission.CanEditConceptDictionary] ∧
      (sourceVersionDetailPermissions m).1 =
        [Permission.CanEditConceptDictionaryVersion]) := by
  constructor <;> intro h <;>
    simp [sourceDetailPermissions, sourceVersionDetailPermissions, h]

/-- Witness for C6: the selection at the concrete methods GET and POST. -/
theorem c6_permission_by_verb_witness :
    (sourceDetailPermissions "GET" = [Permission.CanViewConceptDictionary] ∧
     (sourceVersionDetailPermissions "GET").1 =
       [Permission.CanViewConceptDictionaryVersion]) ∧
    (sourceDetailPermissions "POST" = [Permission.CanEditConceptDictionary] ∧
     (sourceVersionDetailPermissions "POST").1 =
       [Permission.CanEditConceptDictionaryVersion]) :=
  ⟨(c6_permission_by_verb "GET").1 (Or.inl rfl),
   (c6_permission_by_verb "POST").2 (by decide)⟩

/-- Claim C4: in `is_latest` mode the object is resolved by querying the
current filtered queryset for `released = true`, not by identifier (the
identifier-based lookup result `byId` is irrelevant); with no released version
the result is 404; a found object is a released member of the queryset on
which the object-level permission check has passed. -/
theorem c4_is_latest_resolution (qs : List SourceVersion)
    (hasPerm : SourceVersion → Bool) (byId : GetObjectResult) :
    (∀ byId', get_object true qs hasPerm byId = get_object true qs hasPerm byId') ∧
    (qs.filter (fun v => v.released) = [] →
      get_object true qs hasPerm byId = GetObjectResult.notFound) ∧
    (∀ v, get_object true qs hasPerm byId = GetObjectResult.found v →
      v ∈ qs ∧ v.released = true ∧ hasPerm v = true) := by
  refine ⟨fun _ => rfl, fun h => by simp [get_object, h], fun v hv => ?_⟩
  unfold get_object at hv
  split at hv
  case isTrue =>
    split at hv
    · cases hv
    · rename_i obj heq
      split at hv
      case isTrue hp =>
        have hov : obj = v := by cases hv; rfl
        subst hov
        have ha : obj ∈ qs.filter (fun v => v.released) := by
          rw [heq]; exact List.mem_singleton.mpr rfl
        have hm := List.mem_filter.mp ha
        exact ⟨hm.1, by simpa using hm.2, hp⟩
      case isFalse hp => cases hv
    · cases hv
  case isFalse h => exact absurd rfl h

/-- Witness for C4: with a queryset whose only version is unreleased the
result is 404, and the only released version of a singleton queryset is found
with the permission predicate satisfied. -/
theorem c4_is_latest_resolution_witness :
    get_object true [verUnrel] (fun _ => true) GetObjectResult.notFound =
      GetObjectResult.notFound ∧
    (verRel ∈ [verRel] ∧ verRel.released = true ∧
      (fun (_ : SourceVersion) => true) verRel = true) :=
  ⟨(c4_is_latest_resolution [verUnrel] (fun _ => true)
      GetObjectResult.notFound).2.1 (by decide),
   (c4_is_latest_resolution [verRel] (fun _ => true)
      GetObjectResult.notFound).2.2 verRel (by decide)⟩

/-- Claim C7: a POST to the version collection with a resolvable parent
persists the new version linked to the parent and answers 201 with the detail
serialization of the created object and the success headers when the payload
validates, and answers 400 with the serializer's field errors (and persists
nothing) when validation fails. -/
theorem c7_create_outcomes (valid : VersionPayload → Bool)
    (errorsOf : VersionPayload → List String)
    (successHeaders : VersionPayload → List (String × String))
    (parent : Source) (payload : VersionPayload) (db : DB) :
    (valid payload = true →
      createVersion valid errorsOf successHeaders (some parent) payload db =
        (CreateResponse.created (saveNewVersion payload parent)
           (successHeaders payload),
         { db with sourceVersions :=
             db.sourceVersions ++ [saveNewVersion payload parent] }) ∧
      (saveNewVersion payload parent).versioned_object_mnemonic =
        parent.mnemonic) ∧
    (valid payload = false →
      createVersion valid errorsOf successHeaders (some parent) payload db =
        (CreateResponse.badRequest (errorsOf payload), db)) := by
  constructor <;> intro h <;> simp [createVersion, h, saveNewVersion]

/-- Witness for C7: both outcomes at a concrete payload, with an
always-accepting and an always-rejecting validator. -/
theorem c7_create_outcomes_witness :
    (createVersion (fun _ => true) (fun _ => []) (fun _ => [])
        (some srcA) { mnemonic := "v3", released := false } dbEx =
      (CreateResponse.created
         (saveNewVersion { mnemonic := "v3", released := false } srcA) [],
       { dbEx with sourceVersions := dbEx.sourceVersions ++
           [saveNewVersion { mnemonic := "v3", released := false } srcA] }) ∧
     (saveNewVersion { mnemonic := "v3", released := false }
        srcA).versioned_object_mnemonic = srcA.mnemonic) ∧
    createVersion (fun _ => false) (fun _ => ["bad"]) (fun _ => [])
        (some srcA) { mnemonic := "v3", released := false } dbEx =
      (CreateResponse.badRequest ["bad"], dbEx) :=
  ⟨(c7_create_outcomes (fun _ => true) (fun _ => []) (fun _ => []) srcA
      { mnemonic := "v3", released := false } dbEx).1 rfl,
   (c7_create_outcomes (fun _ => false) (fun _ => ["bad"]) (fun _ => []) srcA
      { mnemonic := "v3", released := false } dbEx).2 rfl⟩

/-- Claim C8: on each of the three list endpoints the verbose flag switches
the serializer between detail and summary while the record set of the response
is the same for both values of the flag. -/
theorem c8_verbose_invariance (filterS : List Source → List Source)
    (filterV : List SourceVersion → List SourceVersion)
    (baseQs : List SourceVersion) (rv : SourceVersion) (db : DB) :
    ((sourceListGet filterS true db).1 = SerializerChoice.detail ∧
     (sourceListGet filterS false db).1 = SerializerChoice.summary ∧
     (sourceListGet filterS true db).2 = (sourceListGet filterS false db).2) ∧
    ((sourceVersionListGet filterV true db).1 = SerializerChoice.detail ∧
     (sourceVersionListGet filterV false db).1 = SerializerChoice.summary ∧
     (sourceVersionListGet filterV true db).2 =
       (sourceVersionListGet filterV false db).2) ∧
    ((sourceVersionChildListGet baseQs rv true).1 = SerializerChoice.detail ∧
     (sourceVersionChildListGet baseQs rv false).1 = SerializerChoice.summary ∧
     (sourceVersionChildListGet baseQs rv true).2 =
       (sourceVersionChildListGet baseQs rv false).2) :=
  ⟨⟨rfl, rfl, rfl⟩, ⟨rfl, rfl, rfl⟩, ⟨rfl, rfl, rfl⟩⟩

theorem isSome_ite_some {α : Type} (b : Bool) (x : α) :
    (if b = true then some x else none).isSome = b := by
  cases b <;> simp

/-- Request used to refute the literal reading of C1: the concepts flag is
set and `includeRetired` carries the (truthy) string value `"false"`. -/
def pRetFalse : List (String × String) :=
  [(INCLUDE_CONCEPTS_PARAM, "true"), (INCLUDE_RETIRED_PARAM, "false")]

/-- Counterexample to C1 as stated: on a store whose latest released version
contains one active but retired concept, a GET with `includeConcepts=true` and
`includeRetired=false` returns that retired concept under `concepts`, although
`includeRetired=true` was not given. -/
theorem c1_counterexample :
    retrieve dbRet pRetFalse srcA =
      some { base := srcA, concepts := some [cvRet], mappings := none } ∧
    cvRet.retired = true ∧
    getParam pRetFalse INCLUDE_RETIRED_PARAM = some "false" := by
  exact ⟨rfl, rfl, rfl⟩

/-- Claim C1 (amended): every record attached under `concepts` is active and
belongs to the latest version's concept set, and is non-retired unless the
`includeRetired` parameter is given with a non-empty (truthy) value; a truthy
`limit` truncates the list to at most that many records. -/
theorem c1_retrieve_concepts_amended (db : DB) (p : List (String × String))
    (src : Source) (r : SourceRetrieveData) (l : List ConceptVersion)
    (hr : retrieve db p src = some r) (hc : r.concepts = some l) :
    ∃ v, get_latest_version_of db src = some v ∧
      (∀ c ∈ l, c.is_active = true ∧ v.concepts.contains c.id = true ∧
        (truthy (getParam p INCLUDE_RETIRED_PARAM) = false → c.retired = false)) ∧
      (limitOf p ≠ 0 → l.length ≤ limitOf p) := by
  rcases retrieve_cases hr with ⟨h1, h2, rfl⟩ | ⟨v, slice, hv, hsl, rfl⟩
  · simp at hc
  · dsimp only at hc
    split at hc
    case isTrue hic =>
      have hl := Option.some.inj hc
      subst hl
      refine ⟨v, hv, fun c hcl => ?_, fun hn => ?_⟩
      · have hm := mem_conceptsFor hcl
        exact ⟨hm.2.1, hm.2.2.1, hm.2.2.2⟩
      · have hb := sliceOf_of_limitOf_ne hn
        rw [hsl] at hb
        obtain rfl := Option.some.inj hb
        exact length_conceptsFor
    case isFalse hic => cases hc

/-- Witness for C1 (amended) at the concrete retired-concept store. -/
theorem c1_retrieve_concepts_amended_witness :
    ∃ v, get_latest_version_of dbRet srcA = some v ∧
      (∀ c ∈ [cvRet], c.is_active = true ∧ v.concepts.contains c.id = true ∧
        (truthy (getParam pRetFalse INCLUDE_RETIRED_PARAM) = false →
          c.retired = false)) ∧
      (limitOf pRetFalse ≠ 0 → [cvRet].length ≤ limitOf pRetFalse) :=
  c1_retrieve_concepts_amended dbRet pRetFalse srcA
    { base := srcA, concepts := some [cvRet], mappings := none } [cvRet]
    (by rfl) rfl

/-- Claim C9: the inclusion and retired flags act by raw string truthiness.
The `concepts`/`mappings` keys are attached exactly when the corresponding
parameter is present with a non-empty value; a retired concept can only appear
when `includeRetired` is present with a non-empty value; and when
`includeRetired` is truthy (whatever its text, e.g. `"false"` or `"0"`) the
retired filter is dropped entirely. -/
theorem c9_truthy_flags (db : DB) (p : List (String × String)) (src : Source)
    (r : SourceRetrieveData) (hr : retrieve db p src = some r) :
    (r.concepts.isSome = true ↔
      ∃ s, getParam p INCLUDE_CONCEPTS_PARAM = some s ∧ s ≠ "") ∧
    (r.mappings.isSome = true ↔
      ∃ s, getParam p INCLUDE_MAPPINGS_PARAM = some s ∧ s ≠ "") ∧
    (∀ l c, r.concepts = some l → c ∈ l → c.retired = true →
      ∃ s, getParam p INCLUDE_RETIRED_PARAM = some s ∧ s ≠ "") ∧
    (∀ v l, get_latest_version_of db src = some v →
      truthy (getParam p INCLUDE_RETIRED_PARAM) = true →
      truthy (getParam p LIMIT_PARAM) = false →
      r.concepts = some l →
      ∀ c, c ∈ l ↔ c ∈ db.conceptVersions ∧ c.is_active = true ∧
        v.concepts.contains c.id = true) := by
  rcases retrieve_cases hr with ⟨h1, h2, rfl⟩ | ⟨v, slice, hv, hsl, rfl⟩
  · refine ⟨?_, ?_, ?_, ?_⟩
    · simp [← truthy_iff, h1]
    · simp [← truthy_iff, h2]
    · intro l c hls hcl hret
      simp at hls
    · intro v l hv hirt hlt hls c
      simp at hls
  · refine ⟨?_, ?_, ?_, ?_⟩
    · dsimp only
      rw [isSome_ite_some]
      exact truthy_iff _
    · dsimp only
      rw [isSome_ite_some]
      exact truthy_iff _
    · intro l c hls hcl hret
      dsimp only at hls
      split at hls
      case isTrue hic =>
        have hl := Option.some.inj hls
        subst hl
        have hm := mem_conceptsFor hcl
        rw [← truthy_iff]
        cases htr : truthy (getParam p INCLUDE_RETIRED_PARAM) with
        | false =>
          have hcf := hm.2.2.2 htr
          rw [hret] at hcf
          cases hcf
        | true => rfl
      case isFalse hic => cases hls
    · intro v' l hv' hirt hlt hls c
      rw [hv] at hv'
      obtain rfl := Option.some.inj hv'
      have hb := sliceOf_of_not_truthy hlt
      rw [hsl] at hb
      obtain rfl := Option.some.inj hb
      dsimp only at hls
      split at hls
      case isTrue hic =>
        have hl := Option.some.inj hls
        subst hl
        rw [hirt]
        exact mem_conceptsFor_retired_iff
      case isFalse hic => cases hls

/-- Request exercising C9's witness: `includeConcepts="0"` (truthy),
`includeMappings=""` (falsy), `includeRetired="false"` (truthy). -/
def pFlags : List (String × String) :=
  [(INCLUDE_CONCEPTS_PARAM, "0"), (INCLUDE_MAPPINGS_PARAM, ""),
   (INCLUDE_RETIRED_PARAM, "false")]

def rFlags : SourceRetrieveData :=
  { base := srcA, concepts := some [cv1, cv2], mappings := none }

/-- Witness for C9 at a concrete request with the values `"0"`, `""` and
`"false"`. -/
theorem c9_truthy_flags_witness :
    (rFlags.concepts.isSome = true ↔
      ∃ s, getParam pFlags INCLUDE_CONCEPTS_PARAM = some s ∧ s ≠ "") ∧
    (rFlags.mappings.isSome = true ↔
      ∃ s, getParam pFlags INCLUDE_MAPPINGS_PARAM = some s ∧ s ≠ "") ∧
    (∀ l c, rFlags.concepts = some l → c ∈ l → c.retired = true →
      ∃ s, getParam pFlags INCLUDE_RETIRED_PARAM = some s ∧ s ≠ "") ∧
    (∀ v l, get_latest_version_of dbEx srcA = some v →
      truthy (getParam pFlags INCLUDE_RETIRED_PARAM) = true →
      truthy (getParam pFlags LIMIT_PARAM) = false →
      rFlags.concepts = some l →
      ∀ c, c ∈ l ↔ c ∈ dbEx.conceptVersions ∧ c.is_active = true ∧
        v.concepts.contains c.id = true) :=
  c9_truthy_flags dbEx pFlags srcA rFlags (by rfl)

/-- Claim C10: when both inclusion flags are given together with a truthy
limit, the concepts list and the mappings list are each truncated to at most
that same count; and when neither inclusion flag is truthy the response is
fixed (no extra keys), so the `limit` and `includeRetired` parameters have no
effect. -/
theorem c10_limit_scope (db : DB) (p : List (String × String)) (src : Source) :
    (∀ r lc lm, retrieve db p src = some r → r.concepts = some lc →
      r.mappings = some lm → limitOf p ≠ 0 →
      lc.length ≤ limitOf p ∧ lm.length ≤ limitOf p) ∧
    (truthy (getParam p INCLUDE_CONCEPTS_PARAM) = false →
     truthy (getParam p INCLUDE_MAPPINGS_PARAM) = false →
     retrieve db p src =
       some { base := src, concepts := none, mappings := none }) := by
  constructor
  · intro r lc lm hr hc hm hn
    rcases retrieve_cases hr with ⟨h1, h2, rfl⟩ | ⟨v, slice, hv, hsl, rfl⟩
    · simp at hc
    · have hb := sliceOf_of_limitOf_ne hn
      rw [hsl] at hb
      obtain rfl := Option.some.inj hb
      dsimp only at hc hm
      split at hc
      case isTrue hic =>
        have hlc := Option.some.inj hc
        subst hlc
        split at hm
        case isTrue him =>
          have hlm := Option.some.inj hm
          subst hlm
          exact ⟨length_conceptsFor, length_mappingsFor⟩
        case isFalse him => cases hm
      case isFalse hic => cases hc
  · intro h1 h2
    simp [retrieve, h1, h2]

/-- Request exercising C10's witness: both flags set and `limit=1`. -/
def pLimit : List (String × String) :=
  [(INCLUDE_CONCEPTS_PARAM, "true"), (INCLUDE_MAPPINGS_PARAM, "yes"),
   (LIMIT_PARAM, "1")]

/-- Witness for C10: with two matching concepts and two matching mappings and
`limit=1`, both lists have length at most 1; with no flags the body has no
extra keys. -/
theorem c10_limit_scope_witness :
    ([cv1].length ≤ limitOf pLimit ∧ [mp1].length ≤ limitOf pLimit) ∧
    retrieve dbEx [] srcA =
      some { base := srcA, concepts := none, mappings := none } :=
  ⟨(c10_limit_scope dbEx pLimit srcA).1
      { base := srcA, concepts := some [cv1], mappings := some [mp1] }
      [cv1] [mp1] (by rfl) rfl rfl (by decide),
   (c10_limit_scope dbEx [] srcA).2 rfl rfl⟩

end Oclapi
